import Mathlib

/-!
Verification development for the sqlite2parquet core: a shallow embedding of
the schema-inference and row-group writing code (src/schema.rs, src/lib.rs,
src/conversion.rs) together with theorems about the properties the design
documentation states.

Modelling conventions:
* SQLite dynamic values (`rusqlite::types::ValueRef`) are the inductive
  `SqliteValue`; integer payloads are `Int`, textual/blob payloads are byte
  lists (`List Nat`), and `REAL` payloads are carried as `Rat` (no claim in
  scope depends on float rounding).
* Functions that can panic in Rust (`unwrap`, `todo!`, `unreachable!`) return
  an outcome type with an explicit panic constructor.
* Database queries issued by the code (COUNT, MIN/MAX, the sampling query)
  are modelled by passing the statistics those queries return as explicit
  arguments; the SQL text that the code builds is modelled verbatim as
  strings where a claim depends on it.
-/

/-- Dynamic SQLite cell values, mirroring `rusqlite::types::ValueRef`. -/
inductive SqliteValue : Type
  | Null : SqliteValue
  | Integer (x : Int) : SqliteValue
  | Real (x : Rat) : SqliteValue
  | Text (bytes : List Nat) : SqliteValue
  | Blob (bytes : List Nat) : SqliteValue
deriving DecidableEq, Repr

/-- Parquet physical types, mirroring `PhysicalType` in src/schema.rs. -/
inductive PhysicalType : Type
  | Boolean
  | Int32
  | Int64
  | Float
  | Double
  | ByteArray
  | FixedLenByteArray (len : Int)
deriving DecidableEq, Repr

/-- Mirrors `TimeUnit` in src/schema.rs. -/
inductive TimeUnit : Type
  | Millis
  | Micros
  | Nanos
deriving DecidableEq, Repr

/-- Mirrors `TimeType` in src/schema.rs. -/
structure TimeType : Type where
  utc : Bool
  unit : TimeUnit
deriving DecidableEq, Repr

/-- Mirrors `LogicalType` in src/schema.rs. -/
inductive LogicalType : Type
  | String
  | Map
  | List
  | Enum
  | Date
  | Time (t : TimeType)
  | Timestamp (t : TimeType)
  | Json
  | Bson
  | Uuid
  | Unknown
  | Integer (bit_width : Int) (is_signed : Bool)
deriving DecidableEq, Repr

/-- Mirrors `Encoding` in src/schema.rs. -/
inductive Encoding : Type
  | Plain
  | Rle
  | BitPacked
  | DeltaBinaryPacked
  | DeltaLengthByteArray
  | DeltaByteArray
  | RleDictionary
  | ByteStreamSplit
deriving DecidableEq, Repr

/-- Mirrors the `Column` struct in src/schema.rs (one plan per output
column): name, nullability contract, physical and logical type, optional
encoding override, dictionary flag, and the stored source query text. -/
structure Column : Type where
  name : String
  required : Bool
  physical_type : PhysicalType
  logical_type : Option LogicalType
  encoding : Option Encoding
  dictionary : Bool
  query : String
deriving DecidableEq, Repr

/-! ## Value coercion (src/conversion.rs)

Each `FromSqlite` impl matches on the dynamic value; `todo!()` and
`unreachable!()` are panics, `Err(anyhow!(..))` is an error return. -/

/-- Outcome of a `FromSqlite::from_sqlite` call: a value, an `anyhow` error,
a `todo!()` panic, or the `unreachable!("Nulls are handled separately")`
panic. -/
inductive ConvOutcome (α : Type) : Type
  | ok (a : α) : ConvOutcome α
  | err : ConvOutcome α
  | panicTodo : ConvOutcome α
  | panicUnreachable : ConvOutcome α
deriving DecidableEq, Repr

/-- Mirrors `impl FromSqlite for bool` (src/conversion.rs lines 9-17):
an Integer compares against 1, Null hits `unreachable!`, everything else is
an error. -/
def boolFromSqlite : SqliteValue → ConvOutcome Bool
  | SqliteValue.Integer x => ConvOutcome.ok (x == 1)
  | SqliteValue.Null => ConvOutcome.panicUnreachable
  | _ => ConvOutcome.err

/-- Mirrors `impl FromSqlite for i32` (src/conversion.rs lines 18-26):
`i32::try_from` range-checks the integer and the failure propagates as an
error via the question-mark operator. -/
def i32FromSqlite : SqliteValue → ConvOutcome Int
  | SqliteValue.Integer x =>
      if -(2 ^ 31) ≤ x ∧ x ≤ 2 ^ 31 - 1 then ConvOutcome.ok x else ConvOutcome.err
  | SqliteValue.Null => ConvOutcome.panicUnreachable
  | _ => ConvOutcome.err

/-- Mirrors `impl FromSqlite for i64` (src/conversion.rs lines 27-35). -/
def i64FromSqlite : SqliteValue → ConvOutcome Int
  | SqliteValue.Integer x => ConvOutcome.ok x
  | SqliteValue.Null => ConvOutcome.panicUnreachable
  | _ => ConvOutcome.err

/-- Mirrors `impl FromSqlite for FixedLenByteArray` (src/conversion.rs lines
74-83): the Text and Blob arms are literally `todo!()` (a panic), Null hits
`unreachable!`, and Integer/Real fall to the error arm.  Note the function
is not even given the target length, so no length check can happen here. -/
def fixedLenFromSqlite : SqliteValue → ConvOutcome (List Nat)
  | SqliteValue.Text _ => ConvOutcome.panicTodo
  | SqliteValue.Blob _ => ConvOutcome.panicTodo
  | SqliteValue.Null => ConvOutcome.panicUnreachable
  | _ => ConvOutcome.err

/-! ## The per-column write loop (`write_col`, src/lib.rs lines 209-238) -/

/-- The buffers `write_col` accumulates before its single `write_batch`
call: repetition levels, definition levels, coerced values — plus, for
auditing the calling discipline, the exact list of cells that were passed
to the coercion function (`calls`). -/
structure ColBatch (α : Type) : Type where
  reps : List Nat
  defs : List Nat
  vals : List α
  calls : List SqliteValue
deriving DecidableEq, Repr

/-- Mirrors the loop body of `write_col`: for each cell in row order, a Null
pushes repetition 0 and definition 0 and no value; any other cell pushes
repetition 1, definition 1, and the coerced value.  The coercion function is
a parameter, matching the generic `T::T::from_sqlite` call. -/
def writeCol {α : Type} (coerce : SqliteValue → α) : List SqliteValue → ColBatch α
  | [] => ⟨[], [], [], []⟩
  | x :: xs =>
      let r := writeCol coerce xs
      if x = SqliteValue.Null then
        ⟨0 :: r.reps, 0 :: r.defs, r.vals, r.calls⟩
      else
        ⟨1 :: r.reps, 1 :: r.defs, coerce x :: r.vals, x :: r.calls⟩

/-! ## Schema inference (src/schema.rs)

The per-column closure of `infer_schema` is decomposed into the pure
functions below; the statistics each SQL query returns (null count, MIN/MAX
bounds, sampling counts) are passed in as arguments. -/

/-- Mirrors Rust `type_string.split_once(['[', '('])`: split at the first
occurrence of either open bracket, dropping the bracket itself. -/
def splitOnceBracket : List Char → Option (List Char × List Char)
  | [] => none
  | c :: cs =>
      if c = '[' ∨ c = '(' then some ([], cs)
      else
        match splitOnceBracket cs with
        | some (x, y) => some (c :: x, y)
        | none => none

/-- Mirrors Rust `y.strip_suffix([']', ')'])`: remove a final close bracket
of either kind (the code does not require it to match the open bracket). -/
def stripSuffixClose (l : List Char) : Option (List Char) :=
  match l.getLast? with
  | some c => if c = ']' ∨ c = ')' then some l.dropLast else none
  | none => none

/-- Mirrors Rust `str::parse::<i32>()`: an optional sign, then one or more
ASCII digits, with the resulting value required to fit in signed 32 bits. -/
def parseI32 (l : List Char) : Option Int :=
  let signDigits : Int × List Char :=
    match l with
    | '+' :: rest => (1, rest)
    | '-' :: rest => (-1, rest)
    | rest => (1, rest)
  if signDigits.2 = [] then none
  else if signDigits.2.all Char.isDigit then
    let n : Nat := signDigits.2.foldl (fun acc c => acc * 10 + (c.toNat - '0'.toNat)) 0
    let v : Int := signDigits.1 * n
    if -(2 ^ 31) ≤ v ∧ v ≤ 2 ^ 31 - 1 then some v else none
  else none

/-- Result of the type-string parsing step in `infer_schema`'s `query_map`
closure (src/schema.rs lines 24-29): either the `(type_name, type_len)` pair,
or a panic from one of the two `unwrap` calls. -/
inductive ParseOutcome : Type
  | panics : ParseOutcome
  | ok (typeName : String) (typeLen : Option Int) : ParseOutcome
deriving DecidableEq, Repr

/-- Mirrors src/schema.rs lines 24-29: if the declared type string contains a
`[` or `(`, strip a trailing close bracket (`unwrap` panics when there is
none) and parse the rest as an i32 (`unwrap` panics on failure); otherwise
the whole string is the type name with no length. -/
def parseTypeString (s : String) : ParseOutcome :=
  match splitOnceBracket s.data with
  | none => ParseOutcome.ok s none
  | some (x, y) =>
      match stripSuffixClose y with
      | none => ParseOutcome.panics
      | some y2 =>
          match parseI32 y2 with
          | none => ParseOutcome.panics
          | some len => ParseOutcome.ok (String.mk x) (some len)

/-- Mirrors src/schema.rs lines 42-47: `required = not_null || (SELECT
COUNT(*) == 0 ... WHERE col IS NULL)`.  Rust `||` short-circuits, so the
full-table scan only runs when the schema does not declare NOT NULL; the
second component records whether the scan was issued. -/
def requiredAndScan (notNull : Bool) (nullCount : Nat) : Bool × Bool :=
  if notNull then (true, false) else (decide (nullCount = 0), true)

/-- Mirrors the `infer_integer` closure (src/schema.rs lines 49-62): the
MIN/MAX scan results arrive as optional i64 bounds (NULL on an empty table),
missing bounds default to 0 via `unwrap_or(0)`, and Int32 is chosen exactly
when both defaulted bounds fit the signed 32-bit range. -/
def inferInteger (mn mx : Option Int) : PhysicalType :=
  if mx.getD 0 ≤ 2 ^ 31 - 1 ∧ -(2 ^ 31) ≤ mn.getD 0 then PhysicalType.Int32
  else PhysicalType.Int64

/-- SQL `MIN` aggregate over the non-null values of a column: NULL (none) on
an empty column. -/
def sqlMin : List Int → Option Int
  | [] => none
  | v :: vs => some ((sqlMin vs).elim v (min v))

/-- SQL `MAX` aggregate over the non-null values of a column: NULL (none) on
an empty column. -/
def sqlMax : List Int → Option Int
  | [] => none
  | v :: vs => some ((sqlMax vs).elim v (max v))

/-- The `SELECT MIN(col), MAX(col)` scan that `infer_integer` issues,
applied to the column's values. -/
def minMaxScan (vals : List Int) : Option Int × Option Int :=
  (sqlMin vals, sqlMax vals)

/-- The declared type names whose match arm in src/schema.rs lines 63-92
calls `infer_integer`: the four literals `BIGINT`/`SMALLINT`/`NUM`/`NUMBER`,
or any name starting with `INT` that is not caught by an earlier arm (of the
earlier literals only `INTERVAL` starts with `INT`). -/
def isIntegerFamily (tn : String) : Bool :=
  decide (tn = "BIGINT" ∨ tn = "SMALLINT" ∨ tn = "NUM" ∨ tn = "NUMBER")
    || (List.isPrefixOf "INT".data tn.data && !decide (tn = "INTERVAL"))

/-- Mirrors the `physical_type` match in src/schema.rs lines 63-92, with the
arms in source order; `mm` carries the MIN/MAX scan results that the
integer-family arms consume. -/
def physicalTypeFor (tn : String) (typeLen : Option Int)
    (mm : Option Int × Option Int) : PhysicalType :=
  if tn = "BOOL" then PhysicalType.Boolean
  else if tn = "DATE" then PhysicalType.Int32
  else if tn = "TIME" then PhysicalType.Int64
  else if tn = "DATETIME" ∨ tn = "TIMESTAMP" then PhysicalType.Int64
  else if tn = "UUID" then PhysicalType.FixedLenByteArray 16
  else if tn = "INTERVAL" then PhysicalType.FixedLenByteArray 12
  else if tn = "BIGINT" ∨ tn = "SMALLINT" ∨ tn = "NUM" ∨ tn = "NUMBER" then
    inferInteger mm.1 mm.2
  else if List.isPrefixOf "INT".data tn.data then inferInteger mm.1 mm.2
  else if tn = "TEXT" ∨ tn = "CHAR" ∨ tn = "VARCHAR" ∨ tn = "NVARCHAR" then
    PhysicalType.ByteArray
  else if tn = "BLOB" ∨ tn = "BINARY" ∨ tn = "VARBINARY" then
    match typeLen with
    | some len => PhysicalType.FixedLenByteArray len
    | none => PhysicalType.ByteArray
  else if tn = "JSON" ∨ tn = "BSON" then PhysicalType.ByteArray
  else if tn = "FLOAT" then PhysicalType.Float
  else if tn = "REAL" ∨ tn = "DOUBLE" then PhysicalType.Double
  else PhysicalType.ByteArray

/-- Mirrors the `logical_type` match in src/schema.rs lines 101-116. -/
def logicalTypeFor (tn : String) : Option LogicalType :=
  if tn = "TEXT" ∨ tn = "CHAR" ∨ tn = "VARCHAR" ∨ tn = "NVARCHAR" then
    some LogicalType.String
  else if tn = "DATE" then some LogicalType.Date
  else if tn = "TIME" then some (LogicalType.Time ⟨false, TimeUnit.Nanos⟩)
  else if tn = "DATETIME" ∨ tn = "TIMESTAMP" then
    some (LogicalType.Timestamp ⟨true, TimeUnit.Nanos⟩)
  else if tn = "UUID" then some LogicalType.Uuid
  else if tn = "JSON" then some LogicalType.Json
  else if tn = "BSON" then some LogicalType.Bson
  else none

/-- The sampling query's result (src/schema.rs lines 126-133):
`CAST(COUNT(DISTINCT col) AS REAL) / COUNT(*)` over up to 1000 sampled rows.
SQLite division by a zero row count yields NULL (`none`); otherwise the
quotient of the two counts.  The quotient is modelled as an exact rational:
for counts bounded by the LIMIT of 1000 the nearest-double rounding of the
quotient can never cross the 0.75 threshold, so the comparison below agrees
with the f64 comparison in the code. -/
def propUnique (distinct cnt : Nat) : Option Rat :=
  if cnt = 0 then none else some ((distinct : Rat) / (cnt : Rat))

/-- Mirrors the `dictionary` decision (src/schema.rs lines 122-136): false
for Boolean columns; otherwise `prop_unique.map_or(false, |x| x < 0.75)` on
the sampling query's result. -/
def dictionaryFor (pt : PhysicalType) (distinct cnt : Nat) : Bool :=
  match pt with
  | PhysicalType.Boolean => false
  | _ =>
      match propUnique distinct cnt with
      | none => false
      | some x => decide (x < 3 / 4)

/-- The statistics the per-column queries of `infer_schema` return for one
column: the full-table null count, the MIN/MAX bounds (NULL on an empty
table), and the distinct/total counts of the 1000-row random sample. -/
structure TableStats : Type where
  nullCount : Nat
  minVal : Option Int
  maxVal : Option Int
  sampleDistinct : Nat
  sampleCount : Nat
deriving DecidableEq, Repr

/-- Mirrors the per-column plan assembly in src/schema.rs lines 37-148:
nullability via `requiredAndScan`, physical type via the match (with MIN/MAX
bounds from the stats), logical type, `encoding = None`, the dictionary
decision, and the stored query `SELECT name FROM table ORDER BY rowid`
(line 138). -/
def inferColumn (table nm tn : String) (typeLen : Option Int) (notNull : Bool)
    (stats : TableStats) : Column :=
  let pt := physicalTypeFor tn typeLen (stats.minVal, stats.maxVal)
  { name := nm
    required := (requiredAndScan notNull stats.nullCount).1
    physical_type := pt
    logical_type := logicalTypeFor tn
    encoding := none
    dictionary := dictionaryFor pt stats.sampleDistinct stats.sampleCount
    query := "SELECT " ++ nm ++ " FROM " ++ table ++ " ORDER BY rowid" }

/-! ## The write pipeline (`mk_table` / `write_group`, src/lib.rs)

The sqlite cursors (`FallibleStreamingIterator` over rows) are modelled by
the list of rows the executed query returns; the parquet sink is modelled
from the interface the design document gives it (open, next row group, per
column write_batch, close): it records the batches it is handed and has no
failure condition of its own that these claims depend on. -/

/-- A rusqlite `Rows` cursor: `current` is what `get()` returns (`none`
before the first `advance` and at end-of-data), `rest` the rows not yet
reached. -/
structure Cursor (α : Type) : Type where
  current : Option α
  rest : List α
deriving DecidableEq, Repr

/-- A freshly executed query's cursor, positioned before the first row. -/
def Cursor.fresh {α : Type} (rows : List α) : Cursor α :=
  ⟨none, rows⟩

/-- Mirrors `FallibleStreamingIterator::advance`: move to the next row (or
to end-of-data). -/
def Cursor.advance {α : Type} (c : Cursor α) : Cursor α :=
  ⟨c.rest.head?, c.rest.tail⟩

/-- The statement text `mk_table` prepares for a column (src/lib.rs line
126): `SELECT name FROM table` — built from the column name, not taken from
the plan's stored `query`, and with no ORDER BY clause. -/
def mkTableSelect (nm table : String) : String :=
  "SELECT " ++ nm ++ " FROM " ++ table

/-- Mirrors src/lib.rs lines 123-136: prepare and execute one statement per
column (via `mkTableSelect`), then advance every cursor once.  `exec` is the
database: it maps a statement's text to the rows it yields. -/
def mkTableOpenCursors (exec : String → List SqliteValue) (table : String)
    (cols : List Column) : List (Cursor SqliteValue) :=
  cols.map (fun c => (Cursor.fresh (exec (mkTableSelect c.name table))).advance)

/-- The parquet sink's recorded state: the row groups closed so far, each a
list of per-column batches in column order. -/
structure SinkState : Type where
  groups : List (List (ColBatch SqliteValue))
deriving DecidableEq, Repr

/-- Fatal errors of the write pipeline.  `rowCountMismatch` is the error the
design document's consistency check would raise; it exists here so that the
claimed behaviour is statable against the code. -/
inductive WriteError : Type
  | rowCountMismatch (group : Nat) (column : String) : WriteError
  | sinkError (msg : String) : WriteError
deriving DecidableEq, Repr

/-- Mirrors `write_group` (src/lib.rs lines 177-207): open a row group, then
for each column writer in schema order take the matching cursor and run
`write_col` on whatever rows it yields, close the column, and finally close
the row group.  The per-writer-type dispatch all funnels into the same
generic `write_col`, modelled uniformly with the identity coercion so the
recorded batch keeps the raw cells.  The source compares no row counts
between columns and constructs no error of its own. -/
def writeGroup (wtr : SinkState) (selects : List (List SqliteValue)) :
    Except WriteError SinkState :=
  Except.ok ⟨wtr.groups ++ [selects.map (writeCol id)]⟩

/-- One processed cell of `write_col`'s loop body, prepended to the batch
accumulated so far: a Null pushes repetition 0 and definition 0 and no
value, any other cell pushes 1, 1 and the coerced value (src/lib.rs lines
226-233). -/
def consEntry {α : Type} (coerce : SqliteValue → α) (x : SqliteValue)
    (r : ColBatch α) : ColBatch α :=
  if x = SqliteValue.Null then ⟨0 :: r.reps, 0 :: r.defs, r.vals, r.calls⟩
  else ⟨1 :: r.reps, 1 :: r.defs, coerce x :: r.vals, x :: r.calls⟩

/-- Mirrors `write_col` driving `FallibleStreamingIterator::take(n)` around
a cursor (src/lib.rs lines 144, 220-235).  The `Take` adaptor budgets `n`
calls to `advance` on the underlying cursor and its `get` delegates until
the budget is spent: when `advance` is called with the budget at 0 it only
sets a done flag, leaving the underlying cursor on its current row.  So a
cursor already positioned on a row (as every cursor in `mk_table`'s loop
is) yields that row plus up to `n` more — `n + 1` rows — and when the
budget (rather than the data) runs out, the last-yielded boundary row is
still the cursor's current row afterwards.  Returns the accumulated batch
and the underlying cursor's final state. -/
def writeColTake {α : Type} (coerce : SqliteValue → α) :
    Nat → Cursor SqliteValue → ColBatch α × Cursor SqliteValue
  | n, cur =>
      match cur.current with
      | none => (⟨[], [], [], []⟩, cur)
      | some x =>
          match n with
          | 0 => (consEntry coerce x ⟨[], [], [], []⟩, cur)
          | m + 1 =>
              let p := writeColTake coerce m cur.advance
              (consEntry coerce x p.1, p.2)

/-- The rows still to be delivered by a cursor (current row first) after
one group written with advance budget `g`: if the budget ran out first
(`g + 1` rows were available) the boundary row at index `g` is still
current, so only `g` rows are gone; if the data ran out first the cursor is
exhausted.  This is the list-level form of the final cursor state of
`writeColTake` (theorem `writeColTake_spec`). -/
def takeStep (g : Nat) (l : List SqliteValue) : List SqliteValue :=
  if g + 1 ≤ l.length then l.drop g else []

/-- Mirrors the `while selects[0].get().is_some()` loop of `mk_table`
(src/lib.rs lines 141-160), with each cursor represented by the list of
rows it still has to deliver (current row first) and the effective group
size passed as `gm1 + 1`.  Each iteration wraps every cursor in
`take(group_size)` and runs `write_col` on it: by `writeColTake_spec` that
delivers the cursor's next `group_size + 1` rows (`gm1 + 2`) — not
`group_size` — and advances the cursor by only `group_size` rows
(`takeStep (gm1 + 1)`), leaving the boundary row to be re-read by the next
group. -/
def mkTableLoopAux (gm1 : Nat) (wtr : SinkState) (first : List SqliteValue)
    (rest : List (List SqliteValue)) : Except WriteError SinkState :=
  match h : first with
  | [] => Except.ok wtr
  | _ :: _ =>
      match writeGroup wtr ((first :: rest).map (List.take (gm1 + 2))) with
      | Except.error e => Except.error e
      | Except.ok w2 =>
          mkTableLoopAux gm1 w2 (takeStep (gm1 + 1) first)
            (rest.map (takeStep (gm1 + 1)))
termination_by first.length
decreasing_by
  simp only [takeStep]
  split
  · simp only [List.length_drop, h, List.length_cons]
    omega
  · simp only [List.length_nil, h, List.length_cons]
    omega

/-- Mirrors `mk_table`'s write phase (src/lib.rs lines 118-160): the group
size is clamped to a minimum of 1 (`group_size.max(1)`, line 118) and the
loop indexes the first column's cursor, so the cursors are passed as a head
column plus the remaining columns; every cursor has already been advanced
once, so its list holds its current row first. -/
def mkTableWrite (g : Nat) (first : List SqliteValue)
    (rest : List (List SqliteValue)) : Except WriteError SinkState :=
  mkTableLoopAux (max g 1 - 1) ⟨[]⟩ first rest

/-- The row groups the loop produces, as a pure function of the cursors'
remaining rows: one group per iteration, holding every column's next
`gm1 + 2` rows run through `write_col`, with each cursor advancing by only
`gm1 + 1` rows per iteration (the boundary row is re-delivered). -/
def loopGroups (gm1 : Nat) (first : List SqliteValue)
    (rest : List (List SqliteValue)) : List (List (ColBatch SqliteValue)) :=
  match h : first with
  | [] => []
  | _ :: _ =>
      ((first :: rest).map (fun c => writeCol id (c.take (gm1 + 2))))
        :: loopGroups gm1 (takeStep (gm1 + 1) first)
            (rest.map (takeStep (gm1 + 1)))
termination_by first.length
decreasing_by
  simp only [takeStep]
  split
  · simp only [List.length_drop, h, List.length_cons]
    omega
  · simp only [List.length_nil, h, List.length_cons]
    omega

/-- Number of rows a recorded row group holds, read off the first column's
definition levels (one per processed cell). -/
def groupRows (grp : List (ColBatch SqliteValue)) : Nat :=
  match grp with
  | [] => 0
  | b :: _ => b.defs.length

/-- The row-group sizes the design documentation describes for `n` rows
with effective group size `gm1 + 1`: full disjoint groups of `gm1 + 1`
rows, then the remainder.  Kept as the spec-side description, to be
contrasted with what the write loop actually produces. -/
def chunkSizesAux (gm1 : Nat) : Nat → List Nat
  | 0 => []
  | n + 1 => min (gm1 + 1) (n + 1) :: chunkSizesAux gm1 (n + 1 - (gm1 + 1))
termination_by n => n
decreasing_by omega

/-- The documentation's row-group sizes for requested group size `g`
(clamped to 1) over `n` rows. -/
def chunkSizes (g n : Nat) : List Nat :=
  chunkSizesAux (max g 1 - 1) n

/-! ## Helper lemmas -/

theorem writeCol_defs_length {α : Type} (coerce : SqliteValue → α) :
    ∀ l : List SqliteValue, (writeCol coerce l).defs.length = l.length := by
  intro l
  induction l with
  | nil => rfl
  | cons x xs ih =>
      by_cases h : x = SqliteValue.Null <;> simp [writeCol, h, ih]

theorem writeCol_cons {α : Type} (coerce : SqliteValue → α)
    (x : SqliteValue) (xs : List SqliteValue) :
    writeCol coerce (x :: xs) = consEntry coerce x (writeCol coerce xs) := by
  by_cases h : x = SqliteValue.Null <;> simp [writeCol, consEntry, h]

theorem writeColTake_spec {α : Type} (coerce : SqliteValue → α) :
    ∀ (g : Nat) (l : List SqliteValue), l ≠ [] →
      writeColTake coerce g ⟨l.head?, l.tail⟩
        = (writeCol coerce (l.take (g + 1)),
           ⟨(takeStep g l).head?, (takeStep g l).tail⟩) := by
  intro g
  induction g with
  | zero =>
      intro l hl
      match l with
      | x :: xs =>
          have hts : takeStep 0 (x :: xs) = x :: xs := by
            simp [takeStep]
          rw [hts]
          simp [writeColTake, writeCol_cons, writeCol, consEntry]
  | succ m ih =>
      intro l hl
      match l with
      | x :: xs =>
          cases xs with
          | nil =>
              have hts : takeStep (m + 1) [x] = [] := by
                simp [takeStep]
              rw [hts]
              simp [writeColTake, Cursor.advance, writeCol_cons, writeCol,
                consEntry]
          | cons y ys =>
              have hts : takeStep (m + 1) (x :: y :: ys)
                  = takeStep m (y :: ys) := by
                simp only [takeStep, List.length_cons, List.drop_succ_cons]
                rcases le_or_lt (m + 1) (ys.length + 1) with h | h
                · rw [if_pos (by omega), if_pos (by omega)]
                · rw [if_neg (by omega), if_neg (by omega)]
              rw [hts]
              have hrec := ih (y :: ys) (by simp)
              simp only [List.head?_cons, List.tail_cons] at hrec ⊢
              rw [writeColTake]
              dsimp only [Cursor.advance, List.head?_cons, List.tail_cons]
              rw [hrec]
              dsimp only
              simp only [List.take_succ_cons, writeCol_cons]

theorem mkTableLoopAux_eq (gm1 : Nat) :
    ∀ (first : List SqliteValue) (rest : List (List SqliteValue)) (wtr : SinkState),
      mkTableLoopAux gm1 wtr first rest
        = Except.ok ⟨wtr.groups ++ loopGroups gm1 first rest⟩ := by
  suffices h : ∀ (n : Nat) (first : List SqliteValue), first.length = n →
      ∀ (rest : List (List SqliteValue)) (wtr : SinkState),
        mkTableLoopAux gm1 wtr first rest
          = Except.ok ⟨wtr.groups ++ loopGroups gm1 first rest⟩ by
    intro first rest wtr
    exact h first.length first rfl rest wtr
  intro n
  induction n using Nat.strong_induction_on with
  | _ n ih =>
    intro first hfirst rest wtr
    match first with
    | [] =>
        rw [mkTableLoopAux, loopGroups]
        simp
    | a :: f =>
        rw [mkTableLoopAux, loopGroups, writeGroup]
        dsimp only
        have hlen : (takeStep (gm1 + 1) (a :: f)).length < n := by
          rw [← hfirst]
          simp only [takeStep]
          split
          · simp only [List.length_drop, List.length_cons]
            omega
          · simp only [List.length_nil, List.length_cons]
            omega
        rw [ih (takeStep (gm1 + 1) (a :: f)).length hlen _ rfl]
        simp [List.append_assoc]

theorem writeCol_batch_eq {α : Type} (coerce : SqliteValue → α) :
    ∀ cells : List SqliteValue,
      writeCol coerce cells =
        ⟨cells.map (fun c => if c = SqliteValue.Null then 0 else 1),
         cells.map (fun c => if c = SqliteValue.Null then 0 else 1),
         (cells.filter (fun c => !decide (c = SqliteValue.Null))).map coerce,
         cells.filter (fun c => !decide (c = SqliteValue.Null))⟩ := by
  intro cells
  induction cells with
  | nil => rfl
  | cons x xs ih =>
      by_cases h : x = SqliteValue.Null <;>
        simp [writeCol, ih, h, List.filter_cons]

theorem fromSqlite_no_unreachable (v : SqliteValue) (hv : v ≠ SqliteValue.Null) :
    boolFromSqlite v ≠ ConvOutcome.panicUnreachable
      ∧ i32FromSqlite v ≠ ConvOutcome.panicUnreachable
      ∧ i64FromSqlite v ≠ ConvOutcome.panicUnreachable
      ∧ fixedLenFromSqlite v ≠ ConvOutcome.panicUnreachable := by
  cases v with
  | Null => exact absurd rfl hv
  | Integer x =>
      refine ⟨by simp [boolFromSqlite], ?_, by simp [i64FromSqlite],
        by simp [fixedLenFromSqlite]⟩
      have hx : i32FromSqlite (SqliteValue.Integer x)
          = if -(2 ^ 31) ≤ x ∧ x ≤ 2 ^ 31 - 1 then ConvOutcome.ok x
            else ConvOutcome.err := rfl
      rw [hx]
      split <;> simp
  | Real x =>
      exact ⟨by simp [boolFromSqlite], by simp [i32FromSqlite],
        by simp [i64FromSqlite], by simp [fixedLenFromSqlite]⟩
  | Text b =>
      exact ⟨by simp [boolFromSqlite], by simp [i32FromSqlite],
        by simp [i64FromSqlite], by simp [fixedLenFromSqlite]⟩
  | Blob b =>
      exact ⟨by simp [boolFromSqlite], by simp [i32FromSqlite],
        by simp [i64FromSqlite], by simp [fixedLenFromSqlite]⟩

/-- C8: in the write loop, a null cell appends a definition-level 0 marker
(and repetition marker 0) with no value and no coercion call; a non-null
cell appends definition level 1 (and repetition marker 1) plus the coerced
value; consequently the coercion function is never invoked on a null cell,
so the Null (`unreachable!`) branch of every `FromSqlite` impl is
unreachable under this calling discipline. -/
theorem C8_null_discipline {α : Type} (coerce : SqliteValue → α)
    (cells : List SqliteValue) :
    (writeCol coerce cells).defs
        = cells.map (fun c => if c = SqliteValue.Null then 0 else 1)
      ∧ (writeCol coerce cells).reps
        = cells.map (fun c => if c = SqliteValue.Null then 0 else 1)
      ∧ (writeCol coerce cells).calls
        = cells.filter (fun c => !decide (c = SqliteValue.Null))
      ∧ (writeCol coerce cells).vals = ((writeCol coerce cells).calls).map coerce
      ∧ SqliteValue.Null ∉ (writeCol coerce cells).calls
      ∧ ∀ v ∈ (writeCol coerce cells).calls,
          boolFromSqlite v ≠ ConvOutcome.panicUnreachable
            ∧ i32FromSqlite v ≠ ConvOutcome.panicUnreachable
            ∧ i64FromSqlite v ≠ ConvOutcome.panicUnreachable
            ∧ fixedLenFromSqlite v ≠ ConvOutcome.panicUnreachable := by
  have hcalls_ne : ∀ v ∈ (writeCol coerce cells).calls, v ≠ SqliteValue.Null := by
    intro v hv
    rw [writeCol_batch_eq] at hv
    have := (List.mem_filter.mp hv).2
    simpa using this
  refine ⟨?_, ?_, ?_, ?_, ?_, ?_⟩
  · rw [writeCol_batch_eq]
  · rw [writeCol_batch_eq]
  · rw [writeCol_batch_eq]
  · conv_lhs => rw [writeCol_batch_eq]
    conv_rhs => rw [writeCol_batch_eq]
  · intro hmem
    exact hcalls_ne SqliteValue.Null hmem rfl
  · intro v hv
    exact fromSqlite_no_unreachable v (hcalls_ne v hv)

/-- C7: the code's coercion to a fixed-length byte array does not implement
the documented behaviour: both the Text and the Blob arm are `todo!()` and
panic on every input (including one whose length matches the target), so no
`FixedLengthMismatchError` path exists; Integer and Real sources do fail
with the type-mismatch error as documented.  This theorem evaluates the
embedded code on all four source shapes, exhibiting the divergence. -/
theorem C7_fixed_len_todo (bytes : List Nat) (i : Int) (q : Rat) :
    fixedLenFromSqlite (SqliteValue.Text bytes) = ConvOutcome.panicTodo
      ∧ fixedLenFromSqlite (SqliteValue.Blob bytes) = ConvOutcome.panicTodo
      ∧ fixedLenFromSqlite (SqliteValue.Integer i) = ConvOutcome.err
      ∧ fixedLenFromSqlite (SqliteValue.Real q) = ConvOutcome.err :=
  ⟨rfl, rfl, rfl, rfl⟩

/-- C6: the inferred plan's required flag equals `declared NOT NULL OR
(full-table null count = 0)`, and the second component of `requiredAndScan`
witnesses that the full-table null-count scan is issued exactly when the
schema does not declare NOT NULL. -/
theorem C6_required (table nm tn : String) (typeLen : Option Int)
    (notNull : Bool) (stats : TableStats) :
    (inferColumn table nm tn typeLen notNull stats).required
        = (notNull || decide (stats.nullCount = 0))
      ∧ (requiredAndScan notNull stats.nullCount).2 = !notNull := by
  cases notNull <;> simp [inferColumn, requiredAndScan]

theorem physicalTypeFor_integer (tn : String) (typeLen : Option Int)
    (mm : Option Int × Option Int) (h : isIntegerFamily tn = true) :
    physicalTypeFor tn typeLen mm = inferInteger mm.1 mm.2 := by
  unfold isIntegerFamily at h
  simp only [Bool.or_eq_true, Bool.and_eq_true] at h
  rcases h with hmem | hand
  · rcases of_decide_eq_true hmem with h1 | h1 | h1 | h1 <;> subst h1 <;> rfl
  · obtain ⟨hp, hni⟩ := hand
    have hni2 : tn ≠ "INTERVAL" := by
      intro he; rw [he] at hni; exact absurd hni (by decide)
    have hB : tn ≠ "BOOL" := by
      intro he; rw [he] at hp; exact absurd hp (by decide)
    have hD : tn ≠ "DATE" := by
      intro he; rw [he] at hp; exact absurd hp (by decide)
    have hT : tn ≠ "TIME" := by
      intro he; rw [he] at hp; exact absurd hp (by decide)
    have hDT : tn ≠ "DATETIME" := by
      intro he; rw [he] at hp; exact absurd hp (by decide)
    have hTS : tn ≠ "TIMESTAMP" := by
      intro he; rw [he] at hp; exact absurd hp (by decide)
    have hU : tn ≠ "UUID" := by
      intro he; rw [he] at hp; exact absurd hp (by decide)
    unfold physicalTypeFor
    rw [if_neg hB, if_neg hD, if_neg hT, if_neg (not_or.mpr ⟨hDT, hTS⟩),
      if_neg hU, if_neg hni2]
    by_cases h7 : tn = "BIGINT" ∨ tn = "SMALLINT" ∨ tn = "NUM" ∨ tn = "NUMBER"
    · rw [if_pos h7]
    · rw [if_neg h7, if_pos hp]

/-- C10: on an empty table the MIN/MAX scan returns NULL for both bounds,
`unwrap_or(0)` turns them into 0, and 0 fits the signed 32-bit range, so an
integer-family column of an empty table always infers Int32. -/
theorem C10_empty_table (tn : String) (typeLen : Option Int)
    (h : isIntegerFamily tn = true) :
    physicalTypeFor tn typeLen (none, none) = PhysicalType.Int32 := by
  rw [physicalTypeFor_integer tn typeLen (none, none) h]
  rfl

/-- Witness for C10 at the declared type name INT. -/
theorem C10_empty_table_witness :
    physicalTypeFor "INT" none (none, none) = PhysicalType.Int32 :=
  C10_empty_table "INT" none (by decide)

theorem sqlMax_getD_le (M : Int) (hM : 0 ≤ M) :
    ∀ l : List Int, ((sqlMax l).getD 0 ≤ M ↔ ∀ v ∈ l, v ≤ M) := by
  intro l
  induction l with
  | nil => simpa [sqlMax] using hM
  | cons v vs ih =>
      cases hm : sqlMax vs with
      | none =>
          rw [hm] at ih
          simp only [sqlMax, hm, Option.elim, Option.getD, List.mem_cons] at ih ⊢
          constructor
          · intro hv
            intro w hw
            rcases hw with hw | hw
            · exact hw ▸ hv
            · exact ih.mp hM w hw
          · intro hall
            exact hall v (Or.inl rfl)
      | some m =>
          rw [hm] at ih
          simp only [sqlMax, hm, Option.elim, Option.getD, List.mem_cons] at ih ⊢
          rw [max_le_iff]
          constructor
          · rintro ⟨h1, h2⟩ w hw
            rcases hw with hw | hw
            · exact hw ▸ h1
            · exact ih.mp h2 w hw
          · intro hall
            exact ⟨hall v (Or.inl rfl), ih.mpr (fun w hw => hall w (Or.inr hw))⟩

theorem sqlMin_le_getD (m : Int) (hm : m ≤ 0) :
    ∀ l : List Int, (m ≤ (sqlMin l).getD 0 ↔ ∀ v ∈ l, m ≤ v) := by
  intro l
  induction l with
  | nil => simpa [sqlMin] using hm
  | cons v vs ih =>
      cases hs : sqlMin vs with
      | none =>
          rw [hs] at ih
          simp only [sqlMin, hs, Option.elim, Option.getD, List.mem_cons] at ih ⊢
          constructor
          · intro hv w hw
            rcases hw with hw | hw
            · exact hw ▸ hv
            · exact ih.mp hm w hw
          · intro hall
            exact hall v (Or.inl rfl)
      | some s =>
          rw [hs] at ih
          simp only [sqlMin, hs, Option.elim, Option.getD, List.mem_cons] at ih ⊢
          rw [le_min_iff]
          constructor
          · rintro ⟨h1, h2⟩ w hw
            rcases hw with hw | hw
            · exact hw ▸ h1
            · exact ih.mp h2 w hw
          · intro hall
            exact ⟨hall v (Or.inl rfl), ih.mpr (fun w hw => hall w (Or.inr hw))⟩

theorem inferInteger_eq_int32_iff (mn mx : Option Int) :
    inferInteger mn mx = PhysicalType.Int32
      ↔ (mx.getD 0 ≤ 2 ^ 31 - 1 ∧ -(2 ^ 31) ≤ mn.getD 0) := by
  unfold inferInteger
  split_ifs with hc <;> norm_num at hc ⊢ <;> omega

/-- C5: for every integer-family declared type name, the physical type
computed from the MIN/MAX scan over the column's values is Int32 exactly
when every value fits the signed 32-bit range, and otherwise Int64; in
particular values [1, 2147483647] give Int32 and adding 2147483648 forces
Int64. -/
theorem C5_integer_width (tn : String) (typeLen : Option Int)
    (vals : List Int) (h : isIntegerFamily tn = true) :
    (physicalTypeFor tn typeLen (minMaxScan vals) = PhysicalType.Int32
        ↔ ∀ v ∈ vals, -(2 ^ 31) ≤ v ∧ v ≤ 2 ^ 31 - 1)
      ∧ (physicalTypeFor tn typeLen (minMaxScan vals) = PhysicalType.Int32
          ∨ physicalTypeFor tn typeLen (minMaxScan vals) = PhysicalType.Int64)
      ∧ physicalTypeFor tn typeLen (minMaxScan [1, 2147483647])
          = PhysicalType.Int32
      ∧ physicalTypeFor tn typeLen (minMaxScan [1, 2147483647, 2147483648])
          = PhysicalType.Int64 := by
  refine ⟨?_, ?_, ?_, ?_⟩
  · rw [physicalTypeFor_integer tn typeLen (minMaxScan vals) h]
    rw [show minMaxScan vals = (sqlMin vals, sqlMax vals) from rfl]
    rw [inferInteger_eq_int32_iff]
    rw [sqlMax_getD_le (2 ^ 31 - 1) (by norm_num) vals,
      sqlMin_le_getD (-(2 ^ 31)) (by norm_num) vals]
    constructor
    · rintro ⟨h1, h2⟩ v hv
      exact ⟨h2 v hv, h1 v hv⟩
    · intro hall
      exact ⟨fun v hv => (hall v hv).2, fun v hv => (hall v hv).1⟩
  · rw [physicalTypeFor_integer tn typeLen (minMaxScan vals) h]
    unfold inferInteger
    split_ifs <;> simp
  · rw [physicalTypeFor_integer tn typeLen (minMaxScan [1, 2147483647]) h]
    rfl
  · rw [physicalTypeFor_integer tn typeLen
      (minMaxScan [1, 2147483647, 2147483648]) h]
    rfl

/-- Witness for C5 at the declared type name INT, instantiating the claim's
two example columns. -/
theorem C5_integer_width_witness :
    physicalTypeFor "INT" none (minMaxScan [1, 2147483647]) = PhysicalType.Int32
      ∧ physicalTypeFor "INT" none (minMaxScan [1, 2147483647, 2147483648])
          = PhysicalType.Int64 :=
  ⟨(C5_integer_width "INT" none [] (by decide)).2.2.1,
   (C5_integer_width "INT" none [] (by decide)).2.2.2⟩

/-- C4: the dictionary decision is false for Boolean columns regardless of
the sample; false for an empty sample (the SQL quotient is NULL); and for a
non-boolean column with a non-empty sample it is enabled exactly when the
uniqueness quotient distinct/count is strictly below 3/4 — a quotient of
exactly 3/4 disables it, as the final conjunct checks at 750 distinct
values in a 1000-row sample. -/
theorem C4_dictionary (pt : PhysicalType) (d c : Nat) :
    dictionaryFor PhysicalType.Boolean d c = false
      ∧ dictionaryFor pt d 0 = false
      ∧ (pt ≠ PhysicalType.Boolean → 0 < c →
          (dictionaryFor pt d c = true ↔ (d : ℚ) / (c : ℚ) < 3 / 4))
      ∧ (pt ≠ PhysicalType.Boolean → 0 < c → 4 * d = 3 * c →
          dictionaryFor pt d c = false) := by
  have hnonbool : ∀ (pt2 : PhysicalType), pt2 ≠ PhysicalType.Boolean →
      ∀ d2 c2 : Nat, dictionaryFor pt2 d2 c2
        = match propUnique d2 c2 with
          | none => false
          | some x => decide (x < 3 / 4) := by
    intro pt2 hne d2 c2
    cases pt2 <;> first | exact absurd rfl hne | rfl
  refine ⟨rfl, ?_, ?_, ?_⟩
  · cases pt <;> simp [dictionaryFor, propUnique]
  · intro hne hc
    rw [hnonbool pt hne d c]
    unfold propUnique
    rw [if_neg (Nat.pos_iff_ne_zero.mp hc)]
    simp
  · intro hne hc heq
    rw [hnonbool pt hne d c]
    unfold propUnique
    rw [if_neg (Nat.pos_iff_ne_zero.mp hc)]
    simp only [decide_eq_false_iff_not, not_lt]
    have hcq : (0 : ℚ) < (c : ℚ) := by exact_mod_cast hc
    rw [div_le_div_iff₀ (by norm_num) hcq]
    have : (4 : ℚ) * (d : ℚ) = 3 * (c : ℚ) := by exact_mod_cast heq
    linarith

/-- Witness for C4: in a 1000-row sample, 750 distinct values (quotient
exactly 3/4) disable the dictionary and 500 distinct values enable it. -/
theorem C4_dictionary_witness :
    dictionaryFor PhysicalType.Int64 750 1000 = false
      ∧ dictionaryFor PhysicalType.Int64 500 1000 = true := by
  constructor
  · exact (C4_dictionary PhysicalType.Int64 750 1000).2.2.2
      (by decide) (by norm_num) (by norm_num)
  · exact ((C4_dictionary PhysicalType.Int64 500 1000).2.2.1
      (by decide) (by norm_num)).mpr (by norm_num)

/-- C9 (amended): when the declared type string contains a `[` or `(`, the
parsing step panics (via `unwrap`) whenever the remainder after that
character does not end in a close bracket — either `]` or `)`, the code does
not require the matching one — or the part before that close bracket does
not parse as a 32-bit integer; no error value is returned in those cases. -/
theorem C9_parse_panics (s : String) (x y : List Char)
    (hsplit : splitOnceBracket s.data = some (x, y))
    (hbad : stripSuffixClose y = none
      ∨ ∃ y2, stripSuffixClose y = some y2 ∧ parseI32 y2 = none) :
    parseTypeString s = ParseOutcome.panics := by
  unfold parseTypeString
  rw [hsplit]
  dsimp only
  rcases hbad with hnone | ⟨y2, hsome, hparse⟩
  · rw [hnone]
  · rw [hsome]
    dsimp only
    rw [hparse]

/-- Witness for C9 at the claim's own example `TEXT[abc]`: the remainder
`abc]` ends in a close bracket but `abc` is not an integer, so the parse
panics. -/
theorem C9_parse_panics_witness :
    parseTypeString "TEXT[abc]" = ParseOutcome.panics :=
  C9_parse_panics "TEXT[abc]" "TEXT".data "abc]".data (by rfl)
    (Or.inr ⟨"abc".data, by rfl, by rfl⟩)

/-- C9 (counterexample to the claim as stated): for the declared type
`TEXT[15)` the remainder after `[` is `15)`, which does not end in the
matching close bracket `]`; the claim predicts a panic, but the code strips
the non-matching `)` and successfully parses the length 15. -/
theorem C9_counterexample :
    splitOnceBracket "TEXT[15)".data = some ("TEXT".data, "15)".data)
      ∧ "15)".data.getLast? = some ')'
      ∧ parseTypeString "TEXT[15)" = ParseOutcome.ok "TEXT" (some 15) := by
  refine ⟨by rfl, by rfl, ?_⟩
  rfl

/-- C2 (counterexample to the claim as stated): the statement `mk_table`
prepares for a column is built from scratch as `SELECT name FROM table`; it
is not the plan's stored source expression, which carries an ORDER BY
clause.  The inferred plan for a column `a` of table `t` stores
`SELECT a FROM t ORDER BY rowid`, while the write path executes
`SELECT a FROM t`. -/
theorem C2_counterexample :
    mkTableSelect "a" "t" = "SELECT a FROM t"
      ∧ (inferColumn "t" "a" "INT" none true ⟨0, none, none, 0, 0⟩).query
          = "SELECT a FROM t ORDER BY rowid"
      ∧ mkTableSelect "a" "t"
          ≠ (inferColumn "t" "a" "INT" none true ⟨0, none, none, 0, 0⟩).query := by
  refine ⟨rfl, rfl, ?_⟩
  decide

/-- C2 (amended): for every column in the plan list, the write operation
opens a cursor by executing the freshly built statement
`SELECT name FROM table` (ignoring the plan's stored source expression and
its ORDER BY clause) and advances it exactly once, leaving it positioned on
the first row the statement yields — `head?` — or at end-of-data when the
result is empty. -/
theorem C2_open_cursors (exec : String → List SqliteValue) (table : String)
    (cols : List Column) :
    mkTableOpenCursors exec table cols
      = cols.map (fun c =>
          ⟨(exec (mkTableSelect c.name table)).head?,
           (exec (mkTableSelect c.name table)).tail⟩) := by
  unfold mkTableOpenCursors Cursor.fresh Cursor.advance
  rfl

/-- C1 (counterexample to the claim as stated): two cursors of unequal
length (2 rows versus 1 row) — the claim predicts a fatal
RowCountMismatchError, but `write_group` performs no cross-column row-count
comparison and succeeds, recording a group whose columns hold different
numbers of rows. -/
theorem C1_counterexample :
    [SqliteValue.Integer 1, SqliteValue.Integer 2].length
        ≠ [SqliteValue.Integer 1].length
      ∧ writeGroup ⟨[]⟩
            [[SqliteValue.Integer 1, SqliteValue.Integer 2],
             [SqliteValue.Integer 1]]
          = Except.ok
              ⟨[[⟨[1, 1], [1, 1],
                  [SqliteValue.Integer 1, SqliteValue.Integer 2],
                  [SqliteValue.Integer 1, SqliteValue.Integer 2]⟩,
                 ⟨[1], [1], [SqliteValue.Integer 1],
                  [SqliteValue.Integer 1]⟩]]⟩ :=
  ⟨by decide, rfl⟩

/-- C1 (amended): `write_group` contains no cross-column row-count
consistency check at all: for every sink state and every list of cursor
contents — equal or unequal — it appends one group holding exactly what
each cursor yielded and returns success; it never constructs a
RowCountMismatchError, and any detection of mismatched counts is left to
the external sink library. -/
theorem C1_no_rowcount_check (wtr : SinkState)
    (selects : List (List SqliteValue)) :
    writeGroup wtr selects
      = Except.ok ⟨wtr.groups ++ [selects.map (writeCol id)]⟩ :=
  rfl

/-- C3: the claim (and spec) says group size 2 over 5 rows produces row
groups of sizes [2, 2, 1] whose num_rows sum to the 5 source rows.  The
code does not do this: `take(group_size)` wraps a cursor that `mk_table`
has already positioned on a row, and the adaptor's advance budget makes
`write_col` read that row plus `group_size` more while leaving the boundary
row current for the next group to re-read.  Evaluating the embedded write
loop on 5 distinct rows with group size 2 yields three overlapping groups
of sizes [3, 3, 1] — seven values, rows 2 and 4 each written twice — where
the documented chunking `chunkSizes 2 5` is [2, 2, 1]. -/
theorem C3_row_group_bug :
    ∃ w : SinkState,
      mkTableWrite 2
          [SqliteValue.Integer 0, SqliteValue.Integer 1, SqliteValue.Integer 2,
           SqliteValue.Integer 3, SqliteValue.Integer 4] []
        = Except.ok w
      ∧ w.groups.map groupRows = [3, 3, 1]
      ∧ (w.groups.map groupRows).sum = 7
      ∧ w.groups.map (List.map ColBatch.vals)
          = [[[SqliteValue.Integer 0, SqliteValue.Integer 1, SqliteValue.Integer 2]],
             [[SqliteValue.Integer 2, SqliteValue.Integer 3, SqliteValue.Integer 4]],
             [[SqliteValue.Integer 4]]]
      ∧ chunkSizes 2 5 = [2, 2, 1]
      ∧ w.groups.map groupRows ≠ chunkSizes 2 5 := by
  have hchunk : chunkSizes 2 5 = [2, 2, 1] := by
    have hstep : ∀ gm1 m, chunkSizesAux gm1 (m + 1)
        = min (gm1 + 1) (m + 1) :: chunkSizesAux gm1 (m + 1 - (gm1 + 1)) := by
      intro gm1 m
      rw [chunkSizesAux]
    have h0 : ∀ gm1, chunkSizesAux gm1 0 = [] := by
      intro gm1
      rw [chunkSizesAux]
    show chunkSizesAux 1 5 = [2, 2, 1]
    have e1 := hstep 1 4
    have e2 := hstep 1 2
    have e3 := hstep 1 0
    norm_num at e1 e2 e3
    rw [e1, e2, e3, h0]
  have hgroups : loopGroups 1
      [SqliteValue.Integer 0, SqliteValue.Integer 1, SqliteValue.Integer 2,
       SqliteValue.Integer 3, SqliteValue.Integer 4] []
      = [[writeCol id [SqliteValue.Integer 0, SqliteValue.Integer 1,
            SqliteValue.Integer 2]],
         [writeCol id [SqliteValue.Integer 2, SqliteValue.Integer 3,
            SqliteValue.Integer 4]],
         [writeCol id [SqliteValue.Integer 4]]] := by
    have hstep : ∀ gm1 (x : SqliteValue) xs rest,
        loopGroups gm1 (x :: xs) rest
          = (((x :: xs) :: rest).map (fun c => writeCol id (c.take (gm1 + 2))))
              :: loopGroups gm1 (takeStep (gm1 + 1) (x :: xs))
                  (rest.map (takeStep (gm1 + 1))) := by
      intro gm1 x xs rest
      rw [loopGroups]
    have h0 : ∀ gm1 rest, loopGroups gm1 [] rest = [] := by
      intro gm1 rest
      rw [loopGroups]
    rw [hstep]
    norm_num [takeStep]
    rw [hstep]
    norm_num [takeStep]
    rw [hstep]
    norm_num [takeStep]
    exact h0 1 []
  refine ⟨⟨loopGroups 1
      [SqliteValue.Integer 0, SqliteValue.Integer 1, SqliteValue.Integer 2,
       SqliteValue.Integer 3, SqliteValue.Integer 4] []⟩, ?_, ?_, ?_, ?_,
    hchunk, ?_⟩
  · show mkTableLoopAux 1 ⟨[]⟩ _ _ = _
    rw [mkTableLoopAux_eq]
    rfl
  · rw [hgroups]
    rfl
  · rw [hgroups]
    rfl
  · rw [hgroups]
    rfl
  · rw [hgroups, hchunk]
    decide


/-- Witness for C8 on the concrete cell list [Null, Integer 7]: the null
cell contributes definition level 0 and no value, the integer cell
definition level 1 and a value, and the coercion was only ever called on
the non-null cell, for which the Null/unreachable branch is not taken. -/
theorem C8_null_discipline_witness :
    (writeCol id [SqliteValue.Null, SqliteValue.Integer 7]).defs = [0, 1]
      ∧ (writeCol id [SqliteValue.Null, SqliteValue.Integer 7]).vals
          = [SqliteValue.Integer 7]
      ∧ (writeCol id [SqliteValue.Null, SqliteValue.Integer 7]).calls
          = [SqliteValue.Integer 7]
      ∧ boolFromSqlite (SqliteValue.Integer 7) ≠ ConvOutcome.panicUnreachable := by
  obtain ⟨hdefs, hreps, hcalls, hvals, hnull, hconv⟩ :=
    C8_null_discipline id [SqliteValue.Null, SqliteValue.Integer 7]
  refine ⟨?_, ?_, ?_, ?_⟩
  · rw [hdefs]; rfl
  · rw [hvals, hcalls]; rfl
  · rw [hcalls]; rfl
  · exact (hconv (SqliteValue.Integer 7) (by rw [hcalls]; decide)).1
